import Mathlib

/-!
# Verification of the signal-analysis engine (`indicator_analyzer.py`)

Shallow embedding of `EnhancedSessionRangeAnalyzer` from
`src/indicator_analyzer.py`, together with theorems checking the
natural-language specification against it.

Modelling conventions:

* Python floats are modelled as exact rationals (`ℚ`).  Python's `round(x, n)`
  (banker's rounding, i.e. round-half-to-even) is modelled exactly by
  `roundHE` / `round2` / `round3` below.
* `datetime.now()` (read both at `results['timestamp'] = datetime.now(...)` and
  inside `_days_to_expiry`) is modelled as an explicit parameter `now : ℚ`,
  measured in days since an arbitrary epoch; an expiration date string
  `'%Y-%m-%d'` is modelled as the integer day number of its midnight.
* The `talib` indicator library is external to the repository; the values it
  leaves in the last row of the dataframe (`RSI`, `MACD_hist`, `SMA20`, `SMA50`
  at `.iloc[-1]`) enter `calculate_session_ranges` as explicit parameters.
  Everything the repository itself does with them (the trend comparison, the
  deviation formula, the momentum dict) is embedded faithfully.
* A Python `ZeroDivisionError` (raised by `calculate_tp_sl` when
  `current_price - stop_loss == 0`) is modelled by returning `none`.
* `(t / 30) ** 0.5` in `estimate_premium` is an irrational real square root, so
  the premium estimate lives in `ℝ` (the one non-rational value in the model).
-/

/-- Python's `round` to an integer: round half to even (banker's rounding),
exact on rationals. -/
def roundHE (q : ℚ) : ℤ :=
  let n := ⌊q⌋
  let r := q - n
  if r < 1/2 then n
  else if 1/2 < r then n + 1
  else if 2 ∣ n then n else n + 1

/-- Python's `round(x, 2)` on rationals. -/
def round2 (q : ℚ) : ℚ := (roundHE (q * 100) : ℚ) / 100

/-- Python's `round(x, 3)` on rationals. -/
def round3 (q : ℚ) : ℚ := (roundHE (q * 1000) : ℚ) / 1000

lemma roundHE_le (q : ℚ) : (roundHE q : ℚ) ≤ q + 1/2 := by
  have h1 : (⌊q⌋ : ℚ) ≤ q := Int.floor_le q
  simp only [roundHE]
  split_ifs with ha hb hc <;> push_cast <;> linarith

lemma le_roundHE (q : ℚ) : q - 1/2 ≤ (roundHE q : ℚ) := by
  have h2 : q < ⌊q⌋ + 1 := Int.lt_floor_add_one q
  simp only [roundHE]
  split_ifs with ha hb hc <;> push_cast <;> linarith

lemma roundHE_nonneg {q : ℚ} (h : 0 ≤ q) : 0 ≤ roundHE q := by
  by_contra hneg
  push_neg at hneg
  have h0 : roundHE q + 1 ≤ 0 := Int.lt_iff_add_one_le.mp hneg
  have h1 : (roundHE q : ℚ) ≤ -1 := by
    have : ((roundHE q + 1 : ℤ) : ℚ) ≤ 0 := by exact_mod_cast h0
    push_cast at this
    linarith
  have h2 := le_roundHE q
  linarith

lemma roundHE_nonpos {q : ℚ} (h : q ≤ 0) : roundHE q ≤ 0 := by
  by_contra hpos
  push_neg at hpos
  have h1 : (1 : ℚ) ≤ (roundHE q : ℚ) := by exact_mod_cast Int.lt_iff_add_one_le.mp hpos
  have h2 := roundHE_le q
  linarith

lemma round2_le (q : ℚ) : round2 q ≤ q + 1/200 := by
  unfold round2
  have h := roundHE_le (q * 100)
  linarith

lemma le_round2 (q : ℚ) : q - 1/200 ≤ round2 q := by
  unfold round2
  have h := le_roundHE (q * 100)
  linarith

lemma round2_nonneg {q : ℚ} (h : 0 ≤ q) : 0 ≤ round2 q := by
  unfold round2
  have h1 : (0 : ℚ) ≤ (roundHE (q * 100) : ℚ) := by
    exact_mod_cast roundHE_nonneg (by linarith)
  linarith

lemma round3_nonpos {q : ℚ} (h : q ≤ 0) : round3 q ≤ 0 := by
  unfold round3
  have h1 : (roundHE (q * 1000) : ℚ) ≤ 0 := by
    exact_mod_cast roundHE_nonpos (by linarith)
  linarith

/-! ## Price bars and the session-range calculator -/

/-- One OHLCV price bar after conversion to US/Eastern: `hour` is
`df_est['hour']`, the Eastern hour-of-day of the bar's timestamp. -/
structure Bar where
  hour : ℕ
  high : ℚ
  low : ℚ
  close : ℚ
  volume : ℚ

/-- `(df_est['hour'] >= 20) | (df_est['hour'] < 2)` -/
def asianMask (b : Bar) : Bool := decide (20 ≤ b.hour) || decide (b.hour < 2)

/-- `(df_est['hour'] >= 3) & (df_est['hour'] < 7)` -/
def londonMask (b : Bar) : Bool := decide (3 ≤ b.hour) && decide (b.hour < 7)

/-- `(df_est['hour'] >= 8) & (df_est['hour'] < 12)` -/
def nyMask (b : Bar) : Bool := decide (8 ≤ b.hour) && decide (b.hour < 12)

/-- pandas `.max()` over a non-empty column (callers guard non-emptiness). -/
def maxD : List ℚ → ℚ
  | [] => 0
  | a :: l => l.foldl max a

/-- pandas `.min()` over a non-empty column. -/
def minD : List ℚ → ℚ
  | [] => 0
  | a :: l => l.foldl min a

/-- pandas `.mean()`. -/
def meanD (l : List ℚ) : ℚ := l.sum / l.length

/-- pandas `.iloc[-1]`.  On an empty series the source raises `IndexError`
(`bot.py` guards `hist.empty` before calling the engine), so this total
model — which defaults to 0 — is faithful only on non-empty series; every
theorem instantiated at concrete bars below uses a non-empty series. -/
def lastD (l : List ℚ) : ℚ := l.getLast?.getD 0

/-- Per-session statistics dict:
`{'high': max, 'low': min, 'range': max - min, 'mid': (max + min)/2, 'volume': mean}`. -/
structure SessionStats where
  high : ℚ
  low : ℚ
  range : ℚ
  mid : ℚ
  volume : ℚ
deriving DecidableEq

/-- The `results['sessions']` mapping; a missing key is `none`. -/
structure Sessions where
  asian : Option SessionStats
  london : Option SessionStats
  ny : Option SessionStats
deriving DecidableEq

/-- The `results['momentum']` dict. -/
structure Momentum where
  rsi : ℚ
  macd_hist : ℚ
  trend : String
  price_vs_sma20 : ℚ
deriving DecidableEq

/-- The `results` dict returned by `calculate_session_ranges`. -/
structure AnalysisResults where
  ticker : String
  timestamp : ℚ
  current_price : ℚ
  volume : ℚ
  sessions : Sessions
  momentum : Momentum
deriving DecidableEq

/-- The `if any(mask): sessions[name] = {...}` pattern of
`calculate_session_ranges`: the key is present exactly when some bar matches. -/
def sessionOf (mask : Bar → Bool) (bars : List Bar) : Option SessionStats :=
  if bars.any mask then
    let sub := bars.filter mask
    let hi := maxD (sub.map Bar.high)
    let lo := minD (sub.map Bar.low)
    some ⟨hi, lo, hi - lo, (hi + lo) / 2, meanD (sub.map Bar.volume)⟩
  else none

/-- `calculate_session_ranges(df, ticker)`.  `now` models `datetime.now(...)`;
`rsiLast`, `macdHistLast`, `sma20Last`, `sma50Last` are the last-row outputs of
the external `talib` indicator columns. -/
def calculate_session_ranges (now : ℚ) (bars : List Bar) (ticker : String)
    (rsiLast macdHistLast sma20Last sma50Last : ℚ) : AnalysisResults :=
  { ticker := ticker
    timestamp := now
    current_price := lastD (bars.map Bar.close)
    volume := lastD (bars.map Bar.volume)
    sessions :=
      { asian := sessionOf asianMask bars
        london := sessionOf londonMask bars
        ny := sessionOf nyMask bars }
    momentum :=
      { rsi := rsiLast
        macd_hist := macdHistLast
        trend := if sma20Last > sma50Last then "BULLISH" else "BEARISH"
        price_vs_sma20 :=
          (lastD (bars.map Bar.close) - sma20Last) / sma20Last * 100 } }

/-! ### Helper lemmas for session statistics -/

lemma le_foldl_max (t : List ℚ) : ∀ a : ℚ, a ≤ t.foldl max a := by
  induction t with
  | nil => intro a; simp
  | cons b t ih =>
    intro a
    calc a ≤ max a b := le_max_left _ _
      _ ≤ t.foldl max (max a b) := ih (max a b)

lemma foldl_min_le (t : List ℚ) : ∀ a : ℚ, t.foldl min a ≤ a := by
  induction t with
  | nil => intro a; simp
  | cons b t ih =>
    intro a
    calc t.foldl min (min a b) ≤ min a b := ih (min a b)
      _ ≤ a := min_le_left _ _

lemma le_maxD {x : ℚ} {l : List ℚ} (h : x ∈ l) : x ≤ maxD l := by
  match l with
  | [] => cases h
  | a :: t =>
    show x ≤ t.foldl max a
    induction t generalizing a with
    | nil => simp at h; simp [h]
    | cons b t ih =>
      rcases List.mem_cons.mp h with rfl | h2
      · calc x ≤ max x b := le_max_left _ _
          _ ≤ t.foldl max (max x b) := le_foldl_max t (max x b)
      · rcases List.mem_cons.mp h2 with rfl | h3
        · calc x ≤ max a x := le_max_right _ _
            _ ≤ t.foldl max (max a x) := le_foldl_max t (max a x)
        · exact ih (max a b) (List.mem_cons_of_mem _ h3)

lemma minD_le {x : ℚ} {l : List ℚ} (h : x ∈ l) : minD l ≤ x := by
  match l with
  | [] => cases h
  | a :: t =>
    show t.foldl min a ≤ x
    induction t generalizing a with
    | nil => simp at h; simp [h]
    | cons b t ih =>
      rcases List.mem_cons.mp h with rfl | h2
      · calc t.foldl min (min x b) ≤ min x b := foldl_min_le t (min x b)
          _ ≤ x := min_le_left _ _
      · rcases List.mem_cons.mp h2 with rfl | h3
        · calc t.foldl min (min a x) ≤ min a x := foldl_min_le t (min a x)
            _ ≤ x := min_le_right _ _
        · exact ih (min a b) (List.mem_cons_of_mem _ h3)

/-- Shape of every populated session produced by `sessionOf`. -/
lemma sessionOf_spec {mask : Bar → Bool} {bars : List Bar} {st : SessionStats}
    (hlh : ∀ b ∈ bars, b.low ≤ b.high)
    (h : sessionOf mask bars = some st) :
    st.range = st.high - st.low ∧ 0 ≤ st.range ∧ st.mid = (st.high + st.low) / 2 := by
  unfold sessionOf at h
  by_cases hc : bars.any mask
  · simp only [hc, if_true] at h
    obtain ⟨b, hbmem, hbmask⟩ := List.any_eq_true.mp hc
    have hbsub : b ∈ bars.filter mask := List.mem_filter.mpr ⟨hbmem, hbmask⟩
    have hhigh : b.high ∈ (bars.filter mask).map Bar.high :=
      List.mem_map_of_mem Bar.high hbsub
    have hlow : b.low ∈ (bars.filter mask).map Bar.low :=
      List.mem_map_of_mem Bar.low hbsub
    have h1 : b.high ≤ maxD ((bars.filter mask).map Bar.high) := le_maxD hhigh
    have h2 : minD ((bars.filter mask).map Bar.low) ≤ b.low := minD_le hlow
    have h3 : b.low ≤ b.high := hlh b hbmem
    cases h
    refine ⟨rfl, by simpa using by linarith, rfl⟩
  · simp [hc] at h

/-- All bars of a list fail a mask iff `List.any` is false (the
`if any(mask)` guard). -/
lemma any_eq_false_iff {mask : Bar → Bool} {bars : List Bar} :
    bars.any mask = false ↔ ∀ b ∈ bars, mask b = false := by
  simp [List.any_eq_true]

/-- C5: for every bar series whose bars satisfy `high ≥ low`, every populated
session in the result of `calculate_session_ranges` has
`range = high - low ≥ 0` and `mid = (high + low) / 2`. -/
theorem sessions_range_mid_spec (now : ℚ) (bars : List Bar) (tk : String)
    (r m s20 s50 : ℚ) (hlh : ∀ b ∈ bars, b.low ≤ b.high) (st : SessionStats)
    (h : (calculate_session_ranges now bars tk r m s20 s50).sessions.asian = some st ∨
         (calculate_session_ranges now bars tk r m s20 s50).sessions.london = some st ∨
         (calculate_session_ranges now bars tk r m s20 s50).sessions.ny = some st) :
    st.range = st.high - st.low ∧ 0 ≤ st.range ∧ st.mid = (st.high + st.low) / 2 := by
  rcases h with h | h | h <;> exact sessionOf_spec hlh h

/-- Witness for C5 at a concrete one-bar series (hour 21 → Asian session). -/
theorem sessions_range_mid_spec_witness :
    (⟨105, 95, 10, 100, 7⟩ : SessionStats).range =
        (⟨105, 95, 10, 100, 7⟩ : SessionStats).high -
          (⟨105, 95, 10, 100, 7⟩ : SessionStats).low ∧
      0 ≤ (⟨105, 95, 10, 100, 7⟩ : SessionStats).range ∧
      (⟨105, 95, 10, 100, 7⟩ : SessionStats).mid =
        ((⟨105, 95, 10, 100, 7⟩ : SessionStats).high +
          (⟨105, 95, 10, 100, 7⟩ : SessionStats).low) / 2 :=
  sessions_range_mid_spec 0 [⟨21, 105, 95, 100, 7⟩] "SPY" 50 0 1 1
    (by intro b hb; simp at hb; rw [hb]; norm_num)
    ⟨105, 95, 10, 100, 7⟩
    (Or.inl (by norm_num [calculate_session_ranges, sessionOf, asianMask,
      maxD, minD, meanD, List.filter, List.any]))

/-- C6: if no bar's Eastern hour falls in a session's window, that session's
key is absent (`none`) from the `sessions` mapping, for each of the three
sessions. -/
theorem session_absent_when_no_bars (now : ℚ) (bars : List Bar) (tk : String)
    (r m s20 s50 : ℚ) :
    ((∀ b ∈ bars, asianMask b = false) →
        (calculate_session_ranges now bars tk r m s20 s50).sessions.asian = none) ∧
      ((∀ b ∈ bars, londonMask b = false) →
        (calculate_session_ranges now bars tk r m s20 s50).sessions.london = none) ∧
      ((∀ b ∈ bars, nyMask b = false) →
        (calculate_session_ranges now bars tk r m s20 s50).sessions.ny = none) := by
  refine ⟨fun h => ?_, fun h => ?_, fun h => ?_⟩ <;>
    simp only [calculate_session_ranges, sessionOf] <;>
    rw [any_eq_false_iff.mpr h] <;> simp

/-- Witness for C6: a single bar at Eastern hour 7 lies in no session window,
so all three session keys are absent. -/
theorem session_absent_when_no_bars_witness :
    (calculate_session_ranges 0 [⟨7, 1, 1, 1, 1⟩] "SPY" 50 0 1 1).sessions.asian = none ∧
      (calculate_session_ranges 0 [⟨7, 1, 1, 1, 1⟩] "SPY" 50 0 1 1).sessions.london = none ∧
      (calculate_session_ranges 0 [⟨7, 1, 1, 1, 1⟩] "SPY" 50 0 1 1).sessions.ny = none :=
  ⟨(session_absent_when_no_bars 0 [⟨7, 1, 1, 1, 1⟩] "SPY" 50 0 1 1).1
      (by intro b hb; simp at hb; simp [hb, asianMask]),
    (session_absent_when_no_bars 0 [⟨7, 1, 1, 1, 1⟩] "SPY" 50 0 1 1).2.1
      (by intro b hb; simp at hb; simp [hb, londonMask]),
    (session_absent_when_no_bars 0 [⟨7, 1, 1, 1, 1⟩] "SPY" 50 0 1 1).2.2
      (by intro b hb; simp at hb; simp [hb, nyMask])⟩

/-! ## Direction classifier (`determine_direction`) -/

/-- Result 4-tuple of `determine_direction`:
`(direction, min(confidence, 100), trade_type, reasoning)`. -/
structure DirectionResult where
  direction : String
  confidence : ℚ
  trade_type : String
  reasoning : List String
deriving DecidableEq

/-- Factor 1 (price vs Asian session).  Skipped (`[]`) when the `asian` key is
missing; also unscored when `current_price` equals the Asian mid exactly (the
`if/elif` chain has no `else`).  Reasoning strings are modelled without their
interpolated numbers. -/
def asianFactorAux (current_price : ℚ) : Option SessionStats → List (ℚ × String)
  | none => []
  | some a =>
    if current_price > a.high then [(80, "Price above Asian high")]
    else if current_price > a.mid then [(60, "Price in upper Asian range")]
    else if current_price < a.low then [(20, "Price below Asian low")]
    else if current_price < a.mid then [(40, "Price in lower Asian range")]
    else []

/-- Factor 1 applied to the `asian` key of `session_data['sessions']`. -/
def asianFactor (current_price : ℚ) (session_data : AnalysisResults) : List (ℚ × String) :=
  asianFactorAux current_price session_data.sessions.asian

/-- Factor 2 (RSI), always scored. -/
def rsiFactor (rsi : ℚ) : ℚ × String :=
  if rsi > 70 then (30, "RSI overbought")
  else if rsi > 50 then (60, "RSI bullish")
  else if rsi > 30 then (40, "RSI bearish")
  else (70, "RSI oversold")

/-- Factor 3 (MACD histogram), always scored. -/
def macdFactor (macd_hist : ℚ) : ℚ × String :=
  if macd_hist > 0 then (65, "MACD bullish") else (35, "MACD bearish")

/-- Factor 4 (trend), always scored. -/
def trendFactor (trend : String) : ℚ × String :=
  if trend = "BULLISH" then (70, "Uptrend (SMA20 > SMA50)")
  else (30, "Downtrend (SMA20 < SMA50)")

/-- Factor 5 (volume vs Asian mean volume).  Like factor 1 it is guarded by
`'asian' in session_data['sessions']`.  `current_volume` is
`session_data.get('volume', 0)`. -/
def volumeFactorAux (current_volume : ℚ) : Option SessionStats → List (ℚ × String)
  | none => []
  | some a =>
    let volume_ratio := if a.volume > 0 then current_volume / a.volume else 1
    if volume_ratio > 1.5 then [(70, "High volume")]
    else if volume_ratio > 1 then [(55, "Average volume")]
    else [(40, "Low volume")]

/-- Factor 5 applied to the `asian` key and `session_data.get('volume', 0)`. -/
def volumeFactor (session_data : AnalysisResults) : List (ℚ × String) :=
  volumeFactorAux session_data.volume session_data.sessions.asian

/-- The `confidence_factors` and `reasoning` lists of `determine_direction`,
in append order (score paired with its reasoning string). -/
def factorScores (current_price : ℚ) (session_data : AnalysisResults)
    (momentum : Momentum) : List (ℚ × String) :=
  asianFactor current_price session_data ++
    [rsiFactor momentum.rsi, macdFactor momentum.macd_hist,
      trendFactor momentum.trend] ++
    volumeFactor session_data

/-- `weights = [0.40, 0.20, 0.15, 0.15, 0.10]`. -/
def weights : List ℚ := [40/100, 20/100, 15/100, 15/100, 10/100]

/-- `np.mean(confidence_factors)`: the unweighted mean of the factor scores. -/
def avgFactors (current_price : ℚ) (session_data : AnalysisResults)
    (momentum : Momentum) : ℚ :=
  let fs := (factorScores current_price session_data momentum).map Prod.fst
  fs.sum / fs.length

/-- The weighted confidence
`sum(cf * w for cf, w in zip(confidence_factors, weights))` (Python's `zip`
truncates to the shorter list, exactly like `List.zip`). -/
def weightedConfidence (current_price : ℚ) (session_data : AnalysisResults)
    (momentum : Momentum) : ℚ :=
  ((((factorScores current_price session_data momentum).map Prod.fst).zip
      weights).map fun p => p.1 * p.2).sum

/-- `determine_direction(current_price, session_data, momentum)`. -/
def determine_direction (current_price : ℚ) (session_data : AnalysisResults)
    (momentum : Momentum) : DirectionResult :=
  let reasoning := (factorScores current_price session_data momentum).map Prod.snd
  let confidence := weightedConfidence current_price session_data momentum
  let avg_confidence := avgFactors current_price session_data momentum
  if avg_confidence > 55 then ⟨"CALL", min confidence 100, "BULLISH", reasoning⟩
  else if avg_confidence < 45 then ⟨"PUT", min confidence 100, "BEARISH", reasoning⟩
  else ⟨"NEUTRAL", min confidence 100, "NEUTRAL", reasoning⟩

/-! ### Helper lemmas for the classifier -/

/-- Every collected factor score is one of the fixed rubric values. -/
lemma factorScores_mem (cp : ℚ) (sd : AnalysisResults) (mom : Momentum) :
    ∀ p ∈ factorScores cp sd mom, 0 ≤ p.1 ∧ p.1 ≤ 80 := by
  intro p hp
  have h5 : p ∈ asianFactor cp sd ∨ p = rsiFactor mom.rsi ∨
      p = macdFactor mom.macd_hist ∨ p = trendFactor mom.trend ∨
      p ∈ volumeFactor sd := by
    unfold factorScores at hp
    simp only [List.mem_append, List.mem_cons, List.not_mem_nil, or_false] at hp
    tauto
  rcases h5 with hp | hp | hp | hp | hp
  · unfold asianFactor at hp
    rcases hA : sd.sessions.asian with _ | a
    · rw [hA] at hp; simp only [asianFactorAux] at hp; cases hp
    · rw [hA] at hp
      simp only [asianFactorAux] at hp
      split_ifs at hp <;> simp at hp <;> rw [hp] <;> norm_num
  · rw [hp]; unfold rsiFactor; split_ifs <;> norm_num
  · rw [hp]; unfold macdFactor; split_ifs <;> norm_num
  · rw [hp]; unfold trendFactor; split_ifs <;> norm_num
  · unfold volumeFactor at hp
    rcases hA : sd.sessions.asian with _ | a
    · rw [hA] at hp; simp only [volumeFactorAux] at hp; cases hp
    · rw [hA] at hp
      simp only [volumeFactorAux] at hp
      split_ifs at hp <;> simp at hp <;> rw [hp] <;> norm_num

/-- Sums of pairwise products of two nonnegative lists (after `zip`) are
nonnegative. -/
lemma zip_mul_sum_nonneg (l₁ l₂ : List ℚ) (h₁ : ∀ x ∈ l₁, 0 ≤ x)
    (h₂ : ∀ x ∈ l₂, 0 ≤ x) :
    0 ≤ ((l₁.zip l₂).map fun p => p.1 * p.2).sum := by
  induction l₁ generalizing l₂ with
  | nil => simp
  | cons a t ih =>
    cases l₂ with
    | nil => simp
    | cons b s =>
      simp only [List.zip_cons_cons, List.map_cons, List.sum_cons]
      have ha : 0 ≤ a := h₁ a (by simp)
      have hb : 0 ≤ b := h₂ b (by simp)
      have ht : 0 ≤ ((t.zip s).map fun p => p.1 * p.2).sum :=
        ih s (fun x hx => h₁ x (List.mem_cons_of_mem _ hx))
          (fun x hx => h₂ x (List.mem_cons_of_mem _ hx))
      positivity

lemma weightedConfidence_nonneg (cp : ℚ) (sd : AnalysisResults) (mom : Momentum) :
    0 ≤ weightedConfidence cp sd mom := by
  unfold weightedConfidence
  apply zip_mul_sum_nonneg
  · intro x hx
    obtain ⟨p, hp, hpx⟩ := List.mem_map.mp hx
    exact hpx ▸ (factorScores_mem cp sd mom p hp).1
  · intro x hx
    unfold weights at hx
    simp at hx
    rcases hx with h | h | h | h <;> rw [h] <;> norm_num

lemma confidence_bounds (cp : ℚ) (sd : AnalysisResults) (mom : Momentum) :
    0 ≤ (determine_direction cp sd mom).confidence ∧
      (determine_direction cp sd mom).confidence ≤ 100 := by
  have h0 := weightedConfidence_nonneg cp sd mom
  simp only [determine_direction]
  split_ifs <;>
    exact ⟨le_min h0 (by norm_num), min_le_right _ _⟩

/-- C4: for every input to `determine_direction` the returned confidence lies
in `[0, 100]` (it is `min(weighted_sum, 100)` of nonnegative terms). -/
theorem confidence_in_unit_range (cp : ℚ) (sd : AnalysisResults) (mom : Momentum) :
    0 ≤ (determine_direction cp sd mom).confidence ∧
      (determine_direction cp sd mom).confidence ≤ 100 :=
  confidence_bounds cp sd mom

/-- C3: the returned label is CALL/BULLISH iff the unweighted mean of the
collected factor scores is `> 55`, PUT/BEARISH iff it is `< 45`, and
NEUTRAL iff it lies in `[45, 55]`. -/
theorem direction_threshold_rule (cp : ℚ) (sd : AnalysisResults) (mom : Momentum) :
    (((determine_direction cp sd mom).direction = "CALL" ∧
        (determine_direction cp sd mom).trade_type = "BULLISH") ↔
      55 < avgFactors cp sd mom) ∧
    (((determine_direction cp sd mom).direction = "PUT" ∧
        (determine_direction cp sd mom).trade_type = "BEARISH") ↔
      avgFactors cp sd mom < 45) ∧
    (((determine_direction cp sd mom).direction = "NEUTRAL" ∧
        (determine_direction cp sd mom).trade_type = "NEUTRAL") ↔
      (45 ≤ avgFactors cp sd mom ∧ avgFactors cp sd mom ≤ 55)) := by
  simp only [determine_direction]
  split_ifs with h1 h2
  · exact ⟨iff_of_true ⟨rfl, rfl⟩ h1,
      iff_of_false (fun hc => by have h := hc.1; simp at h) (by linarith),
      iff_of_false (fun hc => by have h := hc.1; simp at h) (fun hc => by linarith [hc.2])⟩
  · exact ⟨iff_of_false (fun hc => by have h := hc.1; simp at h) h1,
      iff_of_true ⟨rfl, rfl⟩ h2,
      iff_of_false (fun hc => by have h := hc.1; simp at h) (fun hc => by linarith [hc.1])⟩
  · exact ⟨iff_of_false (fun hc => by have h := hc.1; simp at h) h1,
      iff_of_false (fun hc => by have h := hc.1; simp at h) h2,
      iff_of_true ⟨rfl, rfl⟩ ⟨by linarith [not_lt.mp h2], not_lt.mp h1⟩⟩

/-- The factor list collapses to the three unconditional factors when the
`asian` session key is missing. -/
lemma factorScores_no_asian (cp : ℚ) (sd : AnalysisResults) (mom : Momentum)
    (h : sd.sessions.asian = none) :
    factorScores cp sd mom =
      [rsiFactor mom.rsi, macdFactor mom.macd_hist, trendFactor mom.trend] := by
  unfold factorScores asianFactor volumeFactor
  rw [h]
  simp [asianFactorAux, volumeFactorAux]

/-- C1 (amended): when the sessions map has no 'asian' key, `determine_direction`
skips BOTH the Asian-position factor and the volume-ratio factor (the latter is
guarded by the same key test), decides the label by the unweighted mean of the
remaining THREE factor scores (RSI, MACD histogram, trend), and still returns a
well-formed result: label in {CALL, PUT, NEUTRAL}, confidence in [0, 100], one
reasoning string per scored factor (three strings). -/
theorem no_asian_three_factor_mean (cp : ℚ) (sd : AnalysisResults) (mom : Momentum)
    (h : sd.sessions.asian = none) :
    (factorScores cp sd mom).map Prod.fst =
        [(rsiFactor mom.rsi).1, (macdFactor mom.macd_hist).1,
          (trendFactor mom.trend).1] ∧
      (determine_direction cp sd mom).reasoning.length = 3 ∧
      ((determine_direction cp sd mom).direction = "CALL" ∨
        (determine_direction cp sd mom).direction = "PUT" ∨
        (determine_direction cp sd mom).direction = "NEUTRAL") ∧
      0 ≤ (determine_direction cp sd mom).confidence ∧
      (determine_direction cp sd mom).confidence ≤ 100 ∧
      (determine_direction cp sd mom).direction =
        (if 55 < ((rsiFactor mom.rsi).1 + (macdFactor mom.macd_hist).1 +
              (trendFactor mom.trend).1) / 3 then "CALL"
          else if ((rsiFactor mom.rsi).1 + (macdFactor mom.macd_hist).1 +
              (trendFactor mom.trend).1) / 3 < 45 then "PUT"
          else "NEUTRAL") := by
  have hf := factorScores_no_asian cp sd mom h
  have havg : avgFactors cp sd mom =
      ((rsiFactor mom.rsi).1 + (macdFactor mom.macd_hist).1 +
        (trendFactor mom.trend).1) / 3 := by
    unfold avgFactors
    rw [hf]
    simp
    ring
  refine ⟨by rw [hf]; rfl, ?_, ?_, (confidence_bounds cp sd mom).1,
    (confidence_bounds cp sd mom).2, ?_⟩
  · simp only [determine_direction]
    split_ifs <;> simp [hf]
  · simp only [determine_direction]
    split_ifs <;> simp
  · simp only [determine_direction]
    rw [havg]
    split_ifs <;> rfl

/-- A concrete analysis-results value with no Asian session (RSI 60, positive
MACD histogram, bullish trend). -/
def sdNoAsian : AnalysisResults :=
  { ticker := "SPY", timestamp := 0, current_price := 100, volume := 0,
    sessions := ⟨none, none, none⟩, momentum := ⟨60, 1, "BULLISH", 0⟩ }

/-- Witness for C1 (amended) at `sdNoAsian`. -/
theorem no_asian_three_factor_mean_witness :
    (factorScores 100 sdNoAsian sdNoAsian.momentum).map Prod.fst =
        [(rsiFactor sdNoAsian.momentum.rsi).1,
          (macdFactor sdNoAsian.momentum.macd_hist).1,
          (trendFactor sdNoAsian.momentum.trend).1] ∧
      (determine_direction 100 sdNoAsian sdNoAsian.momentum).reasoning.length = 3 ∧
      ((determine_direction 100 sdNoAsian sdNoAsian.momentum).direction = "CALL" ∨
        (determine_direction 100 sdNoAsian sdNoAsian.momentum).direction = "PUT" ∨
        (determine_direction 100 sdNoAsian sdNoAsian.momentum).direction = "NEUTRAL") ∧
      0 ≤ (determine_direction 100 sdNoAsian sdNoAsian.momentum).confidence ∧
      (determine_direction 100 sdNoAsian sdNoAsian.momentum).confidence ≤ 100 ∧
      (determine_direction 100 sdNoAsian sdNoAsian.momentum).direction =
        (if 55 < ((rsiFactor sdNoAsian.momentum.rsi).1 +
              (macdFactor sdNoAsian.momentum.macd_hist).1 +
              (trendFactor sdNoAsian.momentum.trend).1) / 3 then "CALL"
          else if ((rsiFactor sdNoAsian.momentum.rsi).1 +
              (macdFactor sdNoAsian.momentum.macd_hist).1 +
              (trendFactor sdNoAsian.momentum.trend).1) / 3 < 45 then "PUT"
          else "NEUTRAL") :=
  no_asian_three_factor_mean 100 sdNoAsian sdNoAsian.momentum rfl

/-- C1 counterexample: at a concrete input with no 'asian' key the classifier
collects THREE factor scores and three reasoning strings, not the four
(RSI, MACD, trend, volume ratio) the claim asserts — the volume-ratio factor
is skipped together with the Asian-position factor. -/
theorem no_asian_four_factors_counterexample :
    sdNoAsian.sessions.asian = none ∧
      (factorScores 100 sdNoAsian sdNoAsian.momentum).length = 3 ∧
      ¬ (factorScores 100 sdNoAsian sdNoAsian.momentum).length = 4 ∧
      (determine_direction 100 sdNoAsian sdNoAsian.momentum).reasoning.length = 3 := by
  have hf := factorScores_no_asian 100 sdNoAsian sdNoAsian.momentum rfl
  refine ⟨rfl, by rw [hf]; rfl, by rw [hf]; norm_num, ?_⟩
  simp only [determine_direction]
  split_ifs <;> simp [hf]

/-! ## Option selector (`option_picker` and its helpers) -/

/-- `_days_to_expiry(expiration)`: `max((expiry_date - datetime.now()).days, 1)`.
`expiration` is the day number of the expiry date's midnight, `now` the current
time in days; `timedelta.days` floors. -/
def days_to_expiry (expiration : ℤ) (now : ℚ) : ℤ :=
  max ⌊(expiration : ℚ) - now⌋ 1

/-- `calculate_option_delta`.  (The source computes `time_to_expiry` here but
never uses it, so the clock does not enter the delta.) -/
def baseDelta (moneyness : ℚ) : Bool → ℚ
  | true =>
    if moneyness > 105/100 then 85/100
    else if moneyness > 102/100 then 65/100
    else if moneyness > 98/100 then 50/100
    else if moneyness > 95/100 then 35/100
    else 20/100
  | false =>
    if moneyness < 95/100 then -85/100
    else if moneyness < 98/100 then -65/100
    else if moneyness < 102/100 then -50/100
    else if moneyness < 105/100 then -35/100
    else -20/100

def calculate_option_delta (spot strike : ℚ) (is_call : Bool) (iv_rank : ℚ) : ℚ :=
  let moneyness := spot / strike
  round2 (baseDelta moneyness is_call * (1 + (iv_rank - 50) / 200))

/-- `calculate_option_theta` (its `spot`, `strike`, `is_call` arguments are
unused by the source body). -/
def calculate_option_theta (expiration : ℤ) (now : ℚ) (iv_rank : ℚ) : ℚ :=
  let time_to_expiry := days_to_expiry expiration now
  let theta : ℚ :=
    if time_to_expiry < 7 then -5/100
    else if time_to_expiry < 14 then -3/100
    else -2/100
  round3 (theta * (1 + (iv_rank - 50) / 100))

/-- Python's `round` to an integer on a real value (round half to even). -/
noncomputable def roundHER (x : ℝ) : ℤ :=
  let n := ⌊x⌋
  let r := x - n
  if r < 1/2 then n
  else if 1/2 < r then n + 1
  else if 2 ∣ n then n else n + 1

/-- Python's `round(x, 2)` on a real value. -/
noncomputable def roundR2 (x : ℝ) : ℝ := (roundHER (x * 100) : ℝ) / 100

lemma roundHER_nonneg {x : ℝ} (h : 0 ≤ x) : 0 ≤ roundHER x := by
  have h1 : (0 : ℤ) ≤ ⌊x⌋ := Int.floor_nonneg.mpr h
  simp only [roundHER]
  split_ifs <;> omega

lemma roundR2_nonneg {x : ℝ} (h : 0 ≤ x) : 0 ≤ roundR2 x := by
  unfold roundR2
  have h1 : (0 : ℝ) ≤ (roundHER (x * 100) : ℝ) := by
    exact_mod_cast roundHER_nonneg (by positivity)
  positivity

/-- `estimate_premium`: intrinsic value plus
`spot * 0.02 * (time_to_expiry / 30) ** 0.5`; the square root is a real
number. -/
noncomputable def estimate_premium (spot strike : ℚ) (expiration : ℤ) (now : ℚ)
    (is_call : Bool) : ℝ :=
  let time_to_expiry := days_to_expiry expiration now
  let intrinsic : ℚ := if is_call then max (spot - strike) 0 else max (strike - spot) 0
  let extrinsic : ℝ := (spot : ℝ) * (2/100) * Real.sqrt ((time_to_expiry : ℝ) / 30)
  roundR2 ((intrinsic : ℝ) + extrinsic)

/-- One options dict appended by `option_picker`. -/
structure OptionCandidate where
  type : String
  strike : ℚ
  delta : ℚ
  theta : ℚ
  risk_level : String
  description : String
  premium_estimate : ℝ

/-- One CALL candidate of `option_picker` (strike already `round(strike, 2)`). -/
noncomputable def callCandidate (current_price strikeRaw : ℚ) (expiration : ℤ)
    (now iv_rank : ℚ) : OptionCandidate :=
  let strike := round2 strikeRaw
  { type := "CALL"
    strike := strike
    delta := calculate_option_delta current_price strike true iv_rank
    theta := calculate_option_theta expiration now iv_rank
    risk_level := if strike ≤ current_price * (102/100) then "MODERATE" else "AGGRESSIVE"
    description := if strike < current_price then "ITM Call" else "OTM Call"
    premium_estimate := estimate_premium current_price strike expiration now true }

/-- One PUT candidate of `option_picker`. -/
noncomputable def putCandidate (current_price strikeRaw : ℚ) (expiration : ℤ)
    (now iv_rank : ℚ) : OptionCandidate :=
  let strike := round2 strikeRaw
  { type := "PUT"
    strike := strike
    delta := calculate_option_delta current_price strike false iv_rank
    theta := calculate_option_theta expiration now iv_rank
    risk_level := if strike ≥ current_price * (98/100) then "MODERATE" else "AGGRESSIVE"
    description := if strike > current_price then "ITM Put" else "OTM Put"
    premium_estimate := estimate_premium current_price strike expiration now false }

/-- Stable insertion for a descending sort on a rational key: an element goes
in front of the first element with a key `≤` its own, preserving the original
relative order of equal keys — the behaviour of Python's stable
`list.sort(key=..., reverse=True)`. -/
def insertDesc {α : Type} (key : α → ℚ) (a : α) : List α → List α
  | [] => [a]
  | b :: l => if key b ≤ key a then a :: b :: l else b :: insertDesc key a l

/-- Stable descending sort by a rational key (insertion sort), modelling
`options.sort(key=lambda x: abs(x['delta']), reverse=True)`. -/
def sortDesc {α : Type} (key : α → ℚ) : List α → List α
  | [] => []
  | a :: l => insertDesc key a (sortDesc key l)

/-- `option_picker(ticker, direction, current_price, expiration_date, iv_rank)`:
builds the candidate strikes for CALL/PUT (an unrecognised direction yields an
empty list), sorts by `abs(delta)` descending (stable) and keeps the first 3. -/
noncomputable def option_picker (ticker direction : String) (current_price : ℚ)
    (expiration : ℤ) (now iv_rank : ℚ) : List OptionCandidate :=
  let options : List OptionCandidate :=
    if direction = "CALL" then
      [callCandidate current_price (current_price * (101/100)) expiration now iv_rank,
        callCandidate current_price (current_price * (102/100)) expiration now iv_rank,
        callCandidate current_price (current_price * (105/100)) expiration now iv_rank]
    else if direction = "PUT" then
      [putCandidate current_price (current_price * (99/100)) expiration now iv_rank,
        putCandidate current_price (current_price * (98/100)) expiration now iv_rank,
        putCandidate current_price (current_price * (95/100)) expiration now iv_rank]
    else []
  (sortDesc (fun c => |c.delta|) options).take 3

/-! ### Membership and strike lemmas for the option selector -/

lemma mem_insertDesc {α : Type} (key : α → ℚ) (a x : α) (l : List α)
    (h : x ∈ insertDesc key a l) : x = a ∨ x ∈ l := by
  induction l with
  | nil => simp [insertDesc] at h; exact Or.inl h
  | cons b t ih =>
    simp only [insertDesc] at h
    split_ifs at h
    · rcases List.mem_cons.mp h with h1 | h1
      · exact Or.inl h1
      · exact Or.inr h1
    · rcases List.mem_cons.mp h with h1 | h1
      · exact Or.inr (h1 ▸ List.mem_cons_self b t)
      · rcases ih h1 with h2 | h2
        · exact Or.inl h2
        · exact Or.inr (List.mem_cons_of_mem b h2)

lemma mem_sortDesc {α : Type} (key : α → ℚ) (x : α) (l : List α)
    (h : x ∈ sortDesc key l) : x ∈ l := by
  induction l with
  | nil => simpa [sortDesc] using h
  | cons a t ih =>
    simp only [sortDesc] at h
    rcases mem_insertDesc key a x _ h with h1 | h1
    · exact h1 ▸ List.mem_cons_self a t
    · exact List.mem_cons_of_mem a (ih h1)

/-- Every candidate of `option_picker _ "CALL" ...` is one of the three CALL
candidates. -/
lemma option_picker_call_cases {tk : String} {s : ℚ} {e : ℤ} {now iv : ℚ}
    {c : OptionCandidate} (h : c ∈ option_picker tk "CALL" s e now iv) :
    c = callCandidate s (s * (101/100)) e now iv ∨
      c = callCandidate s (s * (102/100)) e now iv ∨
      c = callCandidate s (s * (105/100)) e now iv := by
  unfold option_picker at h
  have h2 := mem_sortDesc _ c _ (List.take_subset 3 _ h)
  simpa using h2

/-- Every candidate of `option_picker _ "PUT" ...` is one of the three PUT
candidates. -/
lemma option_picker_put_cases {tk : String} {s : ℚ} {e : ℤ} {now iv : ℚ}
    {c : OptionCandidate} (h : c ∈ option_picker tk "PUT" s e now iv) :
    c = putCandidate s (s * (99/100)) e now iv ∨
      c = putCandidate s (s * (98/100)) e now iv ∨
      c = putCandidate s (s * (95/100)) e now iv := by
  unfold option_picker at h
  have h2 := mem_sortDesc _ c _ (List.take_subset 3 _ h)
  simpa using h2

/-- A rounded CALL strike `round(spot * c, 2)` with `c ≥ 1.01` stays strictly
above a spot `≥ 1` (the rounding error is at most `0.005 < 0.01 * spot`). -/
lemma round2_strike_gt (s c : ℚ) (hs : 1 ≤ s) (hc : 101/100 ≤ c) :
    s < round2 (s * c) := by
  have h := le_round2 (s * c)
  nlinarith [mul_nonneg (by linarith : (0:ℚ) ≤ c - 101/100) (by linarith : (0:ℚ) ≤ s)]

/-- A rounded PUT strike `round(spot * c, 2)` with `c ≤ 0.99` stays strictly
below a spot `≥ 1`. -/
lemma round2_strike_lt (s c : ℚ) (hs : 1 ≤ s) (hc : c ≤ 99/100) :
    round2 (s * c) < s := by
  have h := round2_le (s * c)
  nlinarith [mul_nonneg (by linarith : (0:ℚ) ≤ 99/100 - c) (by linarith : (0:ℚ) ≤ s)]

/-- Rounded strikes with factors `≥ 0.95` are positive for spot `≥ 1`. -/
lemma round2_strike_pos (s c : ℚ) (hs : 1 ≤ s) (hc : 95/100 ≤ c) :
    0 < round2 (s * c) := by
  have h := le_round2 (s * c)
  nlinarith [mul_nonneg (by linarith : (0:ℚ) ≤ c - 95/100) (by linarith : (0:ℚ) ≤ s)]

lemma strike12_lt (s : ℚ) (hs : 1 ≤ s) :
    round2 (s * (101/100)) < round2 (s * (102/100)) := by
  rcases eq_or_lt_of_le hs with h1 | h1
  · rw [← h1]
    norm_num [round2, roundHE]
  · have ha := round2_le (s * (101/100))
    have hb := le_round2 (s * (102/100))
    linarith

lemma strike23_lt (s : ℚ) (hs : 1 ≤ s) :
    round2 (s * (102/100)) < round2 (s * (105/100)) := by
  have ha := round2_le (s * (102/100))
  have hb := le_round2 (s * (105/100))
  linarith

/-! ### Greek bounds for option candidates -/

lemma delta_call_bound (s k iv : ℚ) (hk0 : 0 < k) (hk : s < k)
    (h0 : 0 ≤ iv) (h1 : iv ≤ 100) :
    -1 ≤ calculate_option_delta s k true iv ∧ calculate_option_delta s k true iv ≤ 1 := by
  have hm : s / k < 1 := (div_lt_one hk0).mpr hk
  simp only [calculate_option_delta, baseDelta]
  have hfl : 3/4 ≤ 1 + (iv - 50) / 200 := by linarith
  have hfu : 1 + (iv - 50) / 200 ≤ 5/4 := by linarith
  split_ifs with hb1 hb2 hb3 hb4
  · exact absurd hb1 (by push_neg; linarith)
  · exact absurd hb2 (by push_neg; linarith)
  · constructor
    · have := le_round2 ((50/100 : ℚ) * (1 + (iv - 50) / 200))
      nlinarith
    · have := round2_le ((50/100 : ℚ) * (1 + (iv - 50) / 200))
      nlinarith
  · constructor
    · have := le_round2 ((35/100 : ℚ) * (1 + (iv - 50) / 200))
      nlinarith
    · have := round2_le ((35/100 : ℚ) * (1 + (iv - 50) / 200))
      nlinarith
  · constructor
    · have := le_round2 ((20/100 : ℚ) * (1 + (iv - 50) / 200))
      nlinarith
    · have := round2_le ((20/100 : ℚ) * (1 + (iv - 50) / 200))
      nlinarith

lemma delta_put_bound (s k iv : ℚ) (hk0 : 0 < k) (hk : k < s)
    (h0 : 0 ≤ iv) (h1 : iv ≤ 100) :
    -1 ≤ calculate_option_delta s k false iv ∧ calculate_option_delta s k false iv ≤ 1 := by
  have hm : 1 < s / k := (one_lt_div hk0).mpr hk
  simp only [calculate_option_delta, baseDelta]
  have hfl : 3/4 ≤ 1 + (iv - 50) / 200 := by linarith
  have hfu : 1 + (iv - 50) / 200 ≤ 5/4 := by linarith
  split_ifs with hb1 hb2 hb3 hb4
  · exact absurd hb1 (by push_neg; linarith)
  · exact absurd hb2 (by push_neg; linarith)
  · constructor
    · have := le_round2 ((-50/100 : ℚ) * (1 + (iv - 50) / 200))
      nlinarith
    · have := round2_le ((-50/100 : ℚ) * (1 + (iv - 50) / 200))
      nlinarith
  · constructor
    · have := le_round2 ((-35/100 : ℚ) * (1 + (iv - 50) / 200))
      nlinarith
    · have := round2_le ((-35/100 : ℚ) * (1 + (iv - 50) / 200))
      nlinarith
  · constructor
    · have := le_round2 ((-20/100 : ℚ) * (1 + (iv - 50) / 200))
      nlinarith
    · have := round2_le ((-20/100 : ℚ) * (1 + (iv - 50) / 200))
      nlinarith

lemma theta_nonpos (e : ℤ) (now iv : ℚ) (h0 : 0 ≤ iv) (h1 : iv ≤ 100) :
    calculate_option_theta e now iv ≤ 0 := by
  simp only [calculate_option_theta]
  have hg : 0 ≤ 1 + (iv - 50) / 100 := by linarith
  split_ifs <;> apply round3_nonpos <;> nlinarith

lemma premium_nonneg (s k : ℚ) (e : ℤ) (now : ℚ) (b : Bool) (hs : 0 ≤ s) :
    0 ≤ estimate_premium s k e now b := by
  unfold estimate_premium
  apply roundR2_nonneg
  have hi : (0 : ℚ) ≤ (if b then max (s - k) 0 else max (k - s) 0) := by
    cases b <;> simp
  have hiR : (0 : ℝ) ≤ ((if b then max (s - k) 0 else max (k - s) 0 : ℚ) : ℝ) := by
    exact_mod_cast hi
  have hsR : (0 : ℝ) ≤ (s : ℝ) := by exact_mod_cast hs
  have hsq : (0 : ℝ) ≤ Real.sqrt ((days_to_expiry e now : ℝ) / 30) := Real.sqrt_nonneg _
  positivity

/-- C7 (amended): for spot `≥ 1`, every CALL candidate strike returned by
`option_picker` is strictly greater than the spot, the three (rounded) strikes
`round(spot*1.01, 2) < round(spot*1.02, 2) < round(spot*1.05, 2)` are strictly
increasing, and every PUT candidate strike is strictly less than the spot.
(For tiny spots the `round(strike, 2)` step can collapse a strike onto the
spot, see the counterexample.) -/
theorem option_strikes_vs_spot (tk : String) (s : ℚ) (e : ℤ) (now iv : ℚ)
    (hs : 1 ≤ s) :
    (∀ c ∈ option_picker tk "CALL" s e now iv, s < c.strike) ∧
      round2 (s * (101/100)) < round2 (s * (102/100)) ∧
      round2 (s * (102/100)) < round2 (s * (105/100)) ∧
      (∀ c ∈ option_picker tk "PUT" s e now iv, c.strike < s) := by
  refine ⟨?_, strike12_lt s hs, strike23_lt s hs, ?_⟩
  · intro c hc
    rcases option_picker_call_cases hc with h | h | h <;> rw [h] <;>
      simp only [callCandidate]
    · exact round2_strike_gt s (101/100) hs (by norm_num)
    · exact round2_strike_gt s (102/100) hs (by norm_num)
    · exact round2_strike_gt s (105/100) hs (by norm_num)
  · intro c hc
    rcases option_picker_put_cases hc with h | h | h <;> rw [h] <;>
      simp only [putCandidate]
    · exact round2_strike_lt s (99/100) hs (by norm_num)
    · exact round2_strike_lt s (98/100) hs (by norm_num)
    · exact round2_strike_lt s (95/100) hs (by norm_num)

/-- Witness for C7 (amended) at spot 100. -/
theorem option_strikes_vs_spot_witness :
    (∀ c ∈ option_picker "SPY" "CALL" 100 30 0 50, (100 : ℚ) < c.strike) ∧
      round2 (100 * (101/100)) < round2 (100 * (102/100)) ∧
      round2 (100 * (102/100)) < round2 (100 * (105/100)) ∧
      (∀ c ∈ option_picker "SPY" "PUT" 100 30 0 50, c.strike < 100) :=
  option_strikes_vs_spot "SPY" 100 30 0 50 (by norm_num)

/-- C7 counterexample: at spot 0.1 all three CALL strike candidates round to
0.10 — equal to the spot, neither strictly above it nor strictly increasing. -/
theorem option_strikes_vs_spot_counterexample :
    (0 : ℚ) < 1/10 ∧
      (option_picker "SPY" "CALL" (1/10) 30 0 50).map OptionCandidate.strike =
        [1/10, 1/10, 1/10] ∧
      ¬ ((1 : ℚ)/10 < 1/10) := by
  refine ⟨by norm_num, ?_, by norm_num⟩
  norm_num [option_picker, callCandidate, calculate_option_delta, baseDelta,
    calculate_option_theta, days_to_expiry, round2, round3, roundHE,
    sortDesc, insertDesc]

/-- C8 (amended): for spot `≥ 1` and IV rank in `[0, 100]`, every candidate
returned by `option_picker` (any direction) has delta in `[-1, 1]`, theta
`≤ 0` and premium estimate `≥ 0`.  (For tiny spots the rounded strike can land
deep in the money and the IV scaling pushes the delta above 1, see the
counterexample.) -/
theorem option_candidate_greek_bounds (tk direction : String) (s : ℚ) (e : ℤ)
    (now iv : ℚ) (hs : 1 ≤ s) (h0 : 0 ≤ iv) (h1 : iv ≤ 100) :
    ∀ c ∈ option_picker tk direction s e now iv,
      (-1 ≤ c.delta ∧ c.delta ≤ 1) ∧ c.theta ≤ 0 ∧ 0 ≤ c.premium_estimate := by
  intro c hc
  by_cases hCALL : direction = "CALL"
  · subst hCALL
    rcases option_picker_call_cases hc with h | h | h <;> rw [h] <;>
      simp only [callCandidate] <;>
      refine ⟨delta_call_bound s _ iv ?_ ?_ h0 h1, theta_nonpos e now iv h0 h1,
        premium_nonneg s _ e now true (by linarith)⟩
    · exact lt_trans (by linarith) (round2_strike_gt s (101/100) hs (by norm_num))
    · exact round2_strike_gt s (101/100) hs (by norm_num)
    · exact lt_trans (by linarith) (round2_strike_gt s (102/100) hs (by norm_num))
    · exact round2_strike_gt s (102/100) hs (by norm_num)
    · exact lt_trans (by linarith) (round2_strike_gt s (105/100) hs (by norm_num))
    · exact round2_strike_gt s (105/100) hs (by norm_num)
  · by_cases hPUT : direction = "PUT"
    · subst hPUT
      rcases option_picker_put_cases hc with h | h | h <;> rw [h] <;>
        simp only [putCandidate] <;>
        refine ⟨delta_put_bound s _ iv ?_ ?_ h0 h1, theta_nonpos e now iv h0 h1,
          premium_nonneg s _ e now false (by linarith)⟩
      · exact round2_strike_pos s (99/100) hs (by norm_num)
      · exact round2_strike_lt s (99/100) hs (by norm_num)
      · exact round2_strike_pos s (98/100) hs (by norm_num)
      · exact round2_strike_lt s (98/100) hs (by norm_num)
      · exact round2_strike_pos s (95/100) hs (by norm_num)
      · exact round2_strike_lt s (95/100) hs (by norm_num)
    · exfalso
      rw [option_picker] at hc
      simp [hPUT, hCALL, sortDesc] at hc

/-- Witness for C8 (amended): the concrete 1%-OTM CALL candidate at spot 100,
IV rank 50, has delta in `[-1, 1]`, theta `≤ 0` and premium `≥ 0`. -/
theorem option_candidate_greek_bounds_witness :
    (-1 ≤ (callCandidate 100 (100 * (101/100)) 30 0 50).delta ∧
        (callCandidate 100 (100 * (101/100)) 30 0 50).delta ≤ 1) ∧
      (callCandidate 100 (100 * (101/100)) 30 0 50).theta ≤ 0 ∧
      0 ≤ (callCandidate 100 (100 * (101/100)) 30 0 50).premium_estimate := by
  have hm : callCandidate 100 (100 * (101/100)) 30 0 50 ∈
      option_picker "SPY" "CALL" 100 30 0 50 := by
    have hlist : option_picker "SPY" "CALL" 100 30 0 50 =
        [callCandidate 100 (100 * (101/100)) 30 0 50,
          callCandidate 100 (100 * (102/100)) 30 0 50,
          callCandidate 100 (100 * (105/100)) 30 0 50] := by
      norm_num [option_picker, callCandidate, calculate_option_delta, baseDelta,
        calculate_option_theta, days_to_expiry, round2, round3, roundHE,
        sortDesc, insertDesc, abs_of_nonneg]
    rw [hlist]
    exact List.mem_cons_self _ _
  exact option_candidate_greek_bounds "SPY" "CALL" 100 30 0 50 (by norm_num)
    (by norm_num) (by norm_num) _ hm

/-- C8 counterexample: at spot 0.012 with IV rank 100 every CALL candidate's
strike rounds to 0.01, the moneyness 1.2 counts as deep ITM (base delta 0.85)
and the IV scaling yields `round(0.85 * 1.25, 2) = 1.06 > 1`. -/
theorem option_delta_range_counterexample :
    (0 : ℚ) < 3/250 ∧ (0 : ℚ) ≤ 100 ∧ (100 : ℚ) ≤ 100 ∧
      (option_picker "SPY" "CALL" (3/250) 30 0 100).map OptionCandidate.delta =
        [53/50, 53/50, 53/50] ∧
      ¬ ((53 : ℚ)/50 ≤ 1) := by
  refine ⟨by norm_num, by norm_num, by norm_num, ?_, by norm_num⟩
  norm_num [option_picker, callCandidate, calculate_option_delta, baseDelta,
    calculate_option_theta, days_to_expiry, round2, round3, roundHE,
    sortDesc, insertDesc]

/-! ## Risk calculator (`calculate_tp_sl`) -/

/-- The `{'stop_loss': ..., 'take_profit': ..., 'risk_reward': ...}` dict. -/
structure RiskLevels where
  stop_loss : ℚ
  take_profit : ℚ
  risk_reward : ℚ
deriving DecidableEq

/-- The raw `(stop_loss, take_profit)` pair of `calculate_tp_sl` before the
final floor/round: percentage bands from the confidence, widened `×1.5 / ×1.2`
when trading the option itself, with a fixed `±3%` fallback band for
NEUTRAL or unrecognised directions. -/
def tpslRaw (current_price : ℚ) (direction : String) (confidence : ℚ)
    (option_type : Option String) : ℚ × ℚ :=
  let risk_multiplier := confidence / 100
  if direction = "CALL" ∨ direction = "BULLISH" then
    let stop_loss_pct := 3/100 - (1/100) * risk_multiplier
    let take_profit_pct := 6/100 + (2/100) * risk_multiplier
    let stop_loss_pct := if option_type = some "CALL" then stop_loss_pct * (15/10)
      else stop_loss_pct
    let take_profit_pct := if option_type = some "CALL" then take_profit_pct * (12/10)
      else take_profit_pct
    (current_price * (1 - stop_loss_pct), current_price * (1 + take_profit_pct))
  else if direction = "PUT" ∨ direction = "BEARISH" then
    let stop_loss_pct := 3/100 - (1/100) * risk_multiplier
    let take_profit_pct := 6/100 + (2/100) * risk_multiplier
    let stop_loss_pct := if option_type = some "PUT" then stop_loss_pct * (15/10)
      else stop_loss_pct
    let take_profit_pct := if option_type = some "PUT" then take_profit_pct * (12/10)
      else take_profit_pct
    (current_price * (1 + stop_loss_pct), current_price * (1 - take_profit_pct))
  else
    (current_price * (97/100), current_price * (103/100))

/-- `calculate_tp_sl(current_price, direction, atr, confidence, option_type)`.
The `atr` argument is accepted but never read by the body.  The final
`risk_reward = abs((take_profit - current_price) / (current_price - stop_loss))`
raises `ZeroDivisionError` when the floored-and-rounded stop equals the
current price; that crash is modelled by `none`. -/
def calculate_tp_sl (current_price : ℚ) (direction : String) (atr : ℚ)
    (confidence : ℚ) (option_type : Option String) : Option RiskLevels :=
  let raw := tpslRaw current_price direction confidence option_type
  let stop_loss := round2 (max raw.1 (1/100))
  let take_profit := round2 raw.2
  if current_price - stop_loss = 0 then none
  else
    some ⟨stop_loss, take_profit,
      |(take_profit - current_price) / (current_price - stop_loss)|⟩

/-- C10: the `atr` argument has no effect on the result of `calculate_tp_sl`:
any two ATR values give identical stop-loss, take-profit and risk/reward
(only the percentage-based variant is implemented). -/
theorem tp_sl_ignores_atr (current_price : ℚ) (direction : String)
    (confidence : ℚ) (option_type : Option String) (atr₁ atr₂ : ℚ) :
    calculate_tp_sl current_price direction atr₁ confidence option_type =
      calculate_tp_sl current_price direction atr₂ confidence option_type := rfl

/-- C2 counterexample: at `current_price = 0.01` (a positive price) with
direction CALL and confidence 100, the stop-loss `0.01 * 0.98 = 0.0098` is
floored to `0.01` and rounded to `0.01 = current_price`, so the risk/reward
division is by zero — Python raises `ZeroDivisionError` (modelled `none`). -/
theorem tp_sl_division_by_zero_counterexample :
    (0 : ℚ) < 1/100 ∧ (0 : ℚ) ≤ 100 ∧ (100 : ℚ) ≤ 100 ∧
      calculate_tp_sl (1/100) "CALL" 1 100 none = none := by
  refine ⟨by norm_num, by norm_num, by norm_num, ?_⟩
  have hraw : tpslRaw (1/100) "CALL" 100 none = (49/5000, 27/2500) := by
    have hif : ((none : Option String) = some "CALL") = False := by simp
    simp only [tpslRaw, hif, if_false]
    norm_num
  have hmax : max ((49 : ℚ)/5000) (1/100) = 1/100 :=
    max_eq_right (by norm_num)
  have hstop : round2 ((1 : ℚ)/100) = 1/100 := by
    norm_num [round2, roundHE]
  simp only [calculate_tp_sl, hraw, hmax, hstop]
  norm_num

/-- For a long stop `cp * (1 - E)` with `0.02 ≤ E ≤ 0.045` and `cp > 0.25`,
flooring at `0.01` is inert and rounding cannot climb back up to `cp`. -/
lemma stop_lt_cp_call (cp E : ℚ) (hcp : 1/4 < cp) (hE2 : 1/50 ≤ E)
    (hE1 : E ≤ 45/1000) :
    round2 (max (cp * (1 - E)) (1/100)) < cp := by
  have hx : (1/100 : ℚ) ≤ cp * (1 - E) := by nlinarith
  rw [max_eq_left hx]
  have h := round2_le (cp * (1 - E))
  nlinarith

/-- For a short stop `cp * (1 + E)` with `0.02 ≤ E ≤ 0.045` and `cp > 0.25`,
rounding cannot fall back down to `cp`. -/
lemma cp_lt_stop_put (cp E : ℚ) (hcp : 1/4 < cp) (hE2 : 1/50 ≤ E)
    (hE1 : E ≤ 45/1000) :
    cp < round2 (max (cp * (1 + E)) (1/100)) := by
  have hx : (1/100 : ℚ) ≤ cp * (1 + E) := by nlinarith
  rw [max_eq_left hx]
  have h := le_round2 (cp * (1 + E))
  nlinarith

/-- The fixed NEUTRAL fallback stop `cp * 0.97` also stays below `cp`. -/
lemma stop_lt_cp_neutral (cp : ℚ) (hcp : 1/4 < cp) :
    round2 (max (cp * (97/100)) (1/100)) < cp := by
  have hx : (1/100 : ℚ) ≤ cp * (97/100) := by nlinarith
  rw [max_eq_left hx]
  have h := round2_le (cp * (97/100))
  nlinarith

/-- The rounded, floored stop-loss of `calculate_tp_sl` never equals the
current price when `current_price > 0.25` and confidence lies in `[0, 100]`. -/
lemma tp_sl_stop_ne_cp (cp : ℚ) (direction : String) (conf : ℚ)
    (ot : Option String) (hcp : 1/4 < cp) (h0 : 0 ≤ conf) (h1 : conf ≤ 100) :
    round2 (max (tpslRaw cp direction conf ot).1 (1/100)) ≠ cp := by
  have hu0 : 0 ≤ conf / 100 := by positivity
  have hu1 : conf / 100 ≤ 1 := by linarith
  simp only [tpslRaw]
  split_ifs <;> dsimp only
  · exact ne_of_lt (stop_lt_cp_call cp ((3/100 - 1/100 * (conf/100)) * (15/10))
      hcp (by linarith) (by linarith))
  · exact ne_of_lt (stop_lt_cp_call cp (3/100 - 1/100 * (conf/100))
      hcp (by linarith) (by linarith))
  · exact ne_of_gt (cp_lt_stop_put cp ((3/100 - 1/100 * (conf/100)) * (15/10))
      hcp (by linarith) (by linarith))
  · exact ne_of_gt (cp_lt_stop_put cp (3/100 - 1/100 * (conf/100))
      hcp (by linarith) (by linarith))
  · exact ne_of_lt (stop_lt_cp_neutral cp hcp)

/-- C2 (amended): for every current price `> 0.25`, every direction string,
every confidence in `[0, 100]`, every option type and any ATR,
`calculate_tp_sl` returns a result (no `ZeroDivisionError`): the floor/clamp
logic keeps `stop_loss ≠ current_price` and `risk_reward` is a nonnegative
(finite) rational.  (At tiny prices the rounding defeats the clamp, see the
counterexample at `current_price = 0.01`.) -/
theorem tp_sl_riskreward_defined (cp : ℚ) (direction : String) (atr conf : ℚ)
    (ot : Option String) (hcp : 1/4 < cp) (h0 : 0 ≤ conf) (h1 : conf ≤ 100) :
    ∃ r : RiskLevels, calculate_tp_sl cp direction atr conf ot = some r ∧
      0 ≤ r.risk_reward ∧ r.stop_loss ≠ cp := by
  have hne := tp_sl_stop_ne_cp cp direction conf ot hcp h0 h1
  refine ⟨⟨round2 (max (tpslRaw cp direction conf ot).1 (1/100)),
      round2 (tpslRaw cp direction conf ot).2,
      |(round2 (tpslRaw cp direction conf ot).2 - cp) /
        (cp - round2 (max (tpslRaw cp direction conf ot).1 (1/100)))|⟩,
    ?_, abs_nonneg _, hne⟩
  simp only [calculate_tp_sl]
  rw [if_neg (fun h => hne (by linarith))]

/-- Witness for C2 (amended) at price 100, direction CALL, confidence 75,
option type CALL. -/
theorem tp_sl_riskreward_defined_witness :
    ∃ r : RiskLevels, calculate_tp_sl 100 "CALL" 5 75 (some "CALL") = some r ∧
      0 ≤ r.risk_reward ∧ r.stop_loss ≠ 100 :=
  tp_sl_riskreward_defined 100 "CALL" 5 75 (some "CALL") (by norm_num)
    (by norm_num) (by norm_num)

/-! ## The full analysis pipeline (`status_command` / `pick_command` order):
session ranges → direction → option selection → risk levels. -/

/-- The combined result object assembled by the bot for one request. -/
structure PipelineResult where
  analysis : AnalysisResults
  direction : DirectionResult
  options : List OptionCandidate
  risk : Option RiskLevels

/-- One full engine run over a fetched snapshot, as wired in `status_command`:
`calculate_session_ranges`, then `determine_direction` on its result and
momentum, then `option_picker` on the resulting direction, then
`calculate_tp_sl` (whose `atr`, computed by the bot from the bars, enters as a
parameter).  `now` is the wall-clock reading. -/
noncomputable def analysisPipeline (now : ℚ) (bars : List Bar) (ticker : String)
    (rsiLast macdHistLast sma20Last sma50Last current_price : ℚ)
    (expiration : ℤ) (iv_rank atr : ℚ) : PipelineResult :=
  let session_data := calculate_session_ranges now bars ticker rsiLast
    macdHistLast sma20Last sma50Last
  let d := determine_direction current_price session_data session_data.momentum
  let opts := option_picker ticker d.direction current_price expiration now iv_rank
  let risk := calculate_tp_sl current_price d.direction atr d.confidence
    (if d.direction ≠ "NEUTRAL" then some d.direction else none)
  ⟨session_data, d, opts, risk⟩

/-! ### The clock enters only through the timestamp and days-to-expiry -/

lemma theta_time_congr {e : ℤ} {n₁ n₂ : ℚ} (iv : ℚ)
    (h : days_to_expiry e n₁ = days_to_expiry e n₂) :
    calculate_option_theta e n₁ iv = calculate_option_theta e n₂ iv := by
  simp only [calculate_option_theta, h]

lemma premium_time_congr (s k : ℚ) {e : ℤ} {n₁ n₂ : ℚ} (b : Bool)
    (h : days_to_expiry e n₁ = days_to_expiry e n₂) :
    estimate_premium s k e n₁ b = estimate_premium s k e n₂ b := by
  simp only [estimate_premium, h]

lemma callCandidate_time_congr (s raw : ℚ) {e : ℤ} {n₁ n₂ : ℚ} (iv : ℚ)
    (h : days_to_expiry e n₁ = days_to_expiry e n₂) :
    callCandidate s raw e n₁ iv = callCandidate s raw e n₂ iv := by
  simp only [callCandidate, theta_time_congr iv h,
    premium_time_congr s (round2 raw) true h]

lemma putCandidate_time_congr (s raw : ℚ) {e : ℤ} {n₁ n₂ : ℚ} (iv : ℚ)
    (h : days_to_expiry e n₁ = days_to_expiry e n₂) :
    putCandidate s raw e n₁ iv = putCandidate s raw e n₂ iv := by
  simp only [putCandidate, theta_time_congr iv h,
    premium_time_congr s (round2 raw) false h]

lemma option_picker_time_congr (tk d : String) (s : ℚ) {e : ℤ} {n₁ n₂ : ℚ}
    (iv : ℚ) (h : days_to_expiry e n₁ = days_to_expiry e n₂) :
    option_picker tk d s e n₁ iv = option_picker tk d s e n₂ iv := by
  simp only [option_picker,
    callCandidate_time_congr s (s * (101/100)) iv h,
    callCandidate_time_congr s (s * (102/100)) iv h,
    callCandidate_time_congr s (s * (105/100)) iv h,
    putCandidate_time_congr s (s * (99/100)) iv h,
    putCandidate_time_congr s (s * (98/100)) iv h,
    putCandidate_time_congr s (s * (95/100)) iv h]

/-- C9 (amended): the pipeline is deterministic over its fetched inputs
TOGETHER WITH the wall clock.  For two runs over the same non-empty bar
series (the source raises `IndexError` before producing any result on an
empty one), same spot, expiration and IV rank, at clock readings `n₁, n₂`:
the session statistics, prices, momentum, direction result and risk levels
coincide whatever the two readings are; the recommended options coincide
whenever the two readings give the same days-to-expiry; and the result's
timestamp field is exactly the clock reading — the only two clock reads are
`results['timestamp']` and `_days_to_expiry`. -/
theorem pipeline_clock_dependence (n₁ n₂ : ℚ) (bars : List Bar) (tk : String)
    (r m s20 s50 cp : ℚ) (e : ℤ) (iv atr : ℚ) (hbars : bars ≠ []) :
    (analysisPipeline n₁ bars tk r m s20 s50 cp e iv atr).analysis.sessions =
        (analysisPipeline n₂ bars tk r m s20 s50 cp e iv atr).analysis.sessions ∧
      (analysisPipeline n₁ bars tk r m s20 s50 cp e iv atr).analysis.current_price =
        (analysisPipeline n₂ bars tk r m s20 s50 cp e iv atr).analysis.current_price ∧
      (analysisPipeline n₁ bars tk r m s20 s50 cp e iv atr).analysis.momentum =
        (analysisPipeline n₂ bars tk r m s20 s50 cp e iv atr).analysis.momentum ∧
      (analysisPipeline n₁ bars tk r m s20 s50 cp e iv atr).direction =
        (analysisPipeline n₂ bars tk r m s20 s50 cp e iv atr).direction ∧
      (analysisPipeline n₁ bars tk r m s20 s50 cp e iv atr).risk =
        (analysisPipeline n₂ bars tk r m s20 s50 cp e iv atr).risk ∧
      (analysisPipeline n₁ bars tk r m s20 s50 cp e iv atr).analysis.timestamp = n₁ ∧
      (days_to_expiry e n₁ = days_to_expiry e n₂ →
        (analysisPipeline n₁ bars tk r m s20 s50 cp e iv atr).options =
          (analysisPipeline n₂ bars tk r m s20 s50 cp e iv atr).options) := by
  refine ⟨rfl, rfl, rfl, rfl, rfl, rfl, fun h => ?_⟩
  have hd : determine_direction cp
      (calculate_session_ranges n₂ bars tk r m s20 s50)
      (calculate_session_ranges n₂ bars tk r m s20 s50).momentum =
      determine_direction cp
        (calculate_session_ranges n₁ bars tk r m s20 s50)
        (calculate_session_ranges n₁ bars tk r m s20 s50).momentum := rfl
  simp only [analysisPipeline]
  rw [hd]
  exact option_picker_time_congr tk _ cp iv h

/-- Witness for C9 (amended): clock readings 1/4 and 1/2 of the same day give
the same days-to-expiry (29 days to day 30), hence equal session statistics
and equal recommended options. -/
theorem pipeline_clock_dependence_witness :
    (analysisPipeline (1/4) [⟨7, 1, 1, 100, 1⟩] "SPY" 60 1 2 1 100 30 50 5).analysis.sessions =
        (analysisPipeline (1/2) [⟨7, 1, 1, 100, 1⟩] "SPY" 60 1 2 1 100 30 50 5).analysis.sessions ∧
      (analysisPipeline (1/4) [⟨7, 1, 1, 100, 1⟩] "SPY" 60 1 2 1 100 30 50 5).options =
        (analysisPipeline (1/2) [⟨7, 1, 1, 100, 1⟩] "SPY" 60 1 2 1 100 30 50 5).options :=
  ⟨(pipeline_clock_dependence (1/4) (1/2) [⟨7, 1, 1, 100, 1⟩] "SPY" 60 1 2 1
      100 30 50 5 (by simp)).1,
    (pipeline_clock_dependence (1/4) (1/2) [⟨7, 1, 1, 100, 1⟩] "SPY" 60 1 2 1
      100 30 50 5 (by simp)).2.2.2.2.2.2
      (by unfold days_to_expiry; norm_num)⟩

/-- C9 counterexample: two runs over an identical non-empty bar series (one
bar at Eastern hour 7), same spot, expiration and IV rank, at clock readings
0 and 10 days: the timestamps differ, and the recommended options' thetas
differ (20 days to expiry gives the −0.02 bucket, 10 days the −0.03 bucket) —
the engine is NOT independent of the wall clock. -/
theorem pipeline_clock_counterexample :
    (analysisPipeline 0 [⟨7, 1, 1, 100, 1⟩] "SPY" 60 1 2 1 100 20 50 5).analysis.timestamp ≠
        (analysisPipeline 10 [⟨7, 1, 1, 100, 1⟩] "SPY" 60 1 2 1 100 20 50 5).analysis.timestamp ∧
      (analysisPipeline 0 [⟨7, 1, 1, 100, 1⟩] "SPY" 60 1 2 1 100 20 50 5).options.map
          OptionCandidate.theta ≠
        (analysisPipeline 10 [⟨7, 1, 1, 100, 1⟩] "SPY" 60 1 2 1 100 20 50 5).options.map
          OptionCandidate.theta := by
  constructor
  · norm_num [analysisPipeline, calculate_session_ranges]
  · have h0 : (analysisPipeline 0 [⟨7, 1, 1, 100, 1⟩] "SPY" 60 1 2 1 100 20 50 5).options.map
        OptionCandidate.theta = [-1/50, -1/50, -1/50] := by
      norm_num [analysisPipeline, calculate_session_ranges, sessionOf,
        asianMask, londonMask, nyMask, lastD,
        determine_direction, factorScores, asianFactor, asianFactorAux,
        rsiFactor, macdFactor, trendFactor, volumeFactor, volumeFactorAux,
        avgFactors, weightedConfidence, weights, option_picker, callCandidate,
        calculate_option_delta, baseDelta, calculate_option_theta,
        days_to_expiry, round2, round3, roundHE, sortDesc, insertDesc,
        abs_of_nonneg, abs_of_nonpos]
    have h10 : (analysisPipeline 10 [⟨7, 1, 1, 100, 1⟩] "SPY" 60 1 2 1 100 20 50 5).options.map
        OptionCandidate.theta = [-3/100, -3/100, -3/100] := by
      norm_num [analysisPipeline, calculate_session_ranges, sessionOf,
        asianMask, londonMask, nyMask, lastD,
        determine_direction, factorScores, asianFactor, asianFactorAux,
        rsiFactor, macdFactor, trendFactor, volumeFactor, volumeFactorAux,
        avgFactors, weightedConfidence, weights, option_picker, callCandidate,
        calculate_option_delta, baseDelta, calculate_option_theta,
        days_to_expiry, round2, round3, roundHE, sortDesc, insertDesc,
        abs_of_nonneg, abs_of_nonpos]
    rw [h0, h10]
    norm_num
